import Mathlib

/-!
Verification of the PyDSL typed-value model and native-ABI marshalling layer
(`pydsl/frontend.py`, `pydsl/type.py`).

The Python code is shallowly embedded: nested tuple trees of ctypes become
inductive trees, dynamically generated `ctypes.Structure` classes become an
inductive of struct types, struct instances become an inductive of struct
values, and every `raise` becomes an `Except.error` of a dedicated error
inductive.  Python big integers are Lean `Int`; `1 << n` is written `2 ^ n`.
-/

namespace PyDSL

/-- The native scalar ctype descriptors used by `CType()` in `pydsl/type.py`
(`ctypes.c_bool`, `c_int8`, ..., `c_double`, `c_size_t`, `c_int`). -/
inductive CTy where
  | c_bool | c_int8 | c_uint8 | c_int16 | c_uint16
  | c_int32 | c_uint32 | c_int64 | c_uint64
  | c_float | c_double | c_longdouble | c_size_t | c_int
deriving DecidableEq, Repr

/-- One element of a `CTypeTreeType`: either a ctype scalar descriptor or a
nested tuple of elements.  A Python `CTypeTreeType` (always a tuple) is
`CElemT.tup ts`. -/
inductive CElemT where
  | scalar (t : CTy)
  | tup (ts : List CElemT)

/-- One element of a `CTypeTree` (the value tree): either a raw scalar value
or a nested tuple.  Leaf values are modelled as `Int`; the marshaller never
inspects them. -/
inductive CElemV where
  | scalar (v : Int)
  | tup (vs : List CElemV)

/-- Result of `CTypeTreeType_to_Structure`: a ctype scalar passed through
as-is, or a dynamically generated `ctypes.Structure` subclass whose fields
are positional and typed by the recursive conversion of each child. -/
inductive STy where
  | scalar (t : CTy)
  | struct (ftys : List STy)

/-- A value at the native boundary: either a raw Python/ctype scalar value
(what `CTypeTree_to_Structure` returns for a fully collapsed tree) or a
`ctypes.Structure` instance carrying its `_fields_` types and stored values.
ctypes' numeric coercion on field assignment is abstracted as exact storage. -/
inductive SVal where
  | raw (v : Int)
  | inst (ftys : List STy) (fields : List SVal)

/-- The `TypeError`s the marshaller can raise, one constructor per distinct
`raise` site in `frontend.py`.  `nonterm` stands for the `while len(ct) == 1`
loop in `CTypeTree_from_Structure` failing to terminate when the shell chain
ends in a non-tuple (the loop body then never changes `ct`); `malformedStruct`
covers struct values that ctypes itself could never produce (a scalar-typed
field holding a struct, or vice versa reaching `raw`). -/
inductive MErr where
  | ctNotTuple
  | depthMismatch
  | lengthMismatch
  | sNotStructure
  | typeMismatch
  | nonterm
  | malformedStruct
deriving DecidableEq, Repr

mutual

/-- `CTypeTreeType_to_Structure` restricted to tuple arguments (every
recursive call in the Python source passes a tuple, so this case is total):
a length-1 tuple collapses to its single element's own conversion; any other
length synthesizes a struct whose fields are the converted children. -/
def toStructTyTup : List CElemT → STy
  | [] => STy.struct []
  | [e] => toStructTyElem e
  | e1 :: e2 :: es =>
      STy.struct (toStructTyElem e1 :: toStructTyElem e2 :: toStructTyList es)

/-- Conversion of a single child inside `CTypeTreeType_to_Structure`:
`CTypeTreeType_to_Structure(t) if isinstance(t, tuple) else t`. -/
def toStructTyElem : CElemT → STy
  | CElemT.scalar t => STy.scalar t
  | CElemT.tup ts => toStructTyTup ts

/-- The `ct_recursive` list comprehension of `CTypeTreeType_to_Structure`. -/
def toStructTyList : List CElemT → List STy
  | [] => []
  | e :: es => toStructTyElem e :: toStructTyList es

end

/-- `CTypeTreeType_to_Structure` itself: raises `TypeError` when `ct` is not
a tuple, otherwise converts the tuple. -/
def CTypeTreeType_to_Structure : CElemT → Except MErr STy
  | CElemT.scalar _ => Except.error MErr.ctNotTuple
  | CElemT.tup ts => Except.ok (toStructTyTup ts)

mutual

/-- `CTypeTree_to_Structure(ct, c)` from `frontend.py`.  Entry checks: both
arguments must be tuples (else a depth-mismatch `TypeError`) of equal length
(else a length-mismatch `TypeError`).  A length-1 pair collapses: both
scalars return the raw value, a scalar type against a tuple value recurses
into an immediate depth mismatch, a tuple type recurses on the single pair.
Otherwise children are converted left to right and the derived struct type
is instantiated with them. -/
def CTypeTree_to_Structure : CElemT → CElemV → Except MErr SVal
  | CElemT.tup [CElemT.scalar _], CElemV.tup [CElemV.scalar v] =>
      Except.ok (SVal.raw v)
  | CElemT.tup [CElemT.scalar _], CElemV.tup [CElemV.tup _] =>
      Except.error MErr.depthMismatch
  | CElemT.tup [CElemT.tup ts], CElemV.tup [v] =>
      CTypeTree_to_Structure (CElemT.tup ts) v
  | CElemT.tup ct, CElemV.tup c =>
      if ct.length = c.length then
        (toStructureChildren ct c).map (fun vals => SVal.inst (toStructTyList ct) vals)
      else Except.error MErr.lengthMismatch
  | _, _ => Except.error MErr.depthMismatch

/-- The `c_recursive` list comprehension: a child with both sides scalar is
passed through as the raw value; if either side is a tuple the conversion
recurses (and the entry checks of `CTypeTree_to_Structure` then raise the
depth mismatch if only one side is a tuple). -/
def toStructureChildren : List CElemT → List CElemV → Except MErr (List SVal)
  | CElemT.scalar _ :: ts, CElemV.scalar v :: vs => do
      let rest ← toStructureChildren ts vs
      Except.ok (SVal.raw v :: rest)
  | t :: ts, v :: vs => do
      let x ← CTypeTree_to_Structure t v
      let rest ← toStructureChildren ts vs
      Except.ok (x :: rest)
  | _, _ => Except.ok []

end

mutual

/-- The `while len(ct) == 1` shell-counting loop at the top of
`CTypeTree_from_Structure`.  Returns the number of stripped shells and the
first non-length-1 tuple.  When the chain ends at a single non-tuple element
the loop body never changes `ct` and the Python loop runs forever; that case
is `none`. -/
def stripShells : List CElemT → Option (Nat × List CElemT)
  | [] => some (0, [])
  | [e] => stripShellsE e
  | e1 :: e2 :: es => some (0, e1 :: e2 :: es)

/-- One iteration of the shell loop on a length-1 tuple: the count has been
incremented; a tuple element is descended into, a non-tuple element leaves
`ct` unchanged so the `while len(ct) == 1` condition never becomes false. -/
def stripShellsE : CElemT → Option (Nat × List CElemT)
  | CElemT.scalar _ => none
  | CElemT.tup ts =>
      match stripShells ts with
      | some p => some (p.1 + 1, p.2)
      | none => none

end

mutual

/-- The per-member `while isinstance(t, tuple) and len(t) == 1` loop of
`CTypeTree_from_Structure`: strips singleton tuple shells off one element,
counting them. -/
def stripMemberShells : CElemT → Nat × CElemT
  | CElemT.scalar t => (0, CElemT.scalar t)
  | CElemT.tup ts => stripMemberShellsT ts

/-- The same loop once the element is known to be a tuple: only a length-1
tuple is stripped further. -/
def stripMemberShellsT : List CElemT → Nat × CElemT
  | [] => (0, CElemT.tup [])
  | [e] => ((stripMemberShells e).1 + 1, (stripMemberShells e).2)
  | e1 :: e2 :: es => (0, CElemT.tup (e1 :: e2 :: es))

end

/-- `for _ in range(n): val = (val,)` — re-adds `n` singleton tuple shells. -/
def addShellsV : Nat → CElemV → CElemV
  | 0, v => v
  | n + 1, v => CElemV.tup [addShellsV n v]

/-- Singleton tuple shells on the type side, used to state the collapsing
invariant. -/
def addShellsT : Nat → CElemT → CElemT
  | 0, t => t
  | n + 1, t => CElemT.tup [addShellsT n t]

/-- One loop iteration of `CTypeTree_from_Structure` for a field whose
declared ctype is a scalar (`not issubclass(st, Structure)`): take the field
value as-is, require the shell-stripped member element to be exactly the
declared ctype (`t != st` raises the type-mismatch `TypeError`), and re-add
the member's singleton shells around the value.  A struct stored under a
scalar-declared field cannot be produced by ctypes (`malformedStruct`). -/
def scalarField (t : CElemT) (st : CTy) (f : SVal) : Except MErr CElemV :=
  match (stripMemberShells t).2 with
  | CElemT.scalar tct =>
      if tct = st then
        match f with
        | SVal.raw v =>
            Except.ok (addShellsV (stripMemberShells t).1 (CElemV.scalar v))
        | SVal.inst _ _ => Except.error MErr.malformedStruct
      else Except.error MErr.typeMismatch
  | CElemT.tup _ => Except.error MErr.typeMismatch

mutual

/-- `CTypeTree_from_Structure(ct, s)` from `frontend.py`.  `s` must be a
`Structure` instance and `ct` a tuple; the top-level tuple shells of `ct` are
counted and stripped, the stripped length must match the struct's field
count, each (element, field) pair is converted by the loop body (a
`Structure`-typed field recurses on the shell-stripped member element and
re-adds the member's shells; a scalar-typed field goes through
`scalarField`), and the counted shells are re-added around the resulting
tuple. -/
def CTypeTree_from_Structure : CElemT → SVal → Except MErr CElemV
  | _, SVal.raw _ => Except.error MErr.sNotStructure
  | CElemT.scalar _, SVal.inst _ _ => Except.error MErr.ctNotTuple
  | CElemT.tup ct, SVal.inst ftys fields =>
      match stripShells ct with
      | none => Except.error MErr.nonterm
      | some (n, ct2) =>
          if ct2.length = ftys.length then
            (fromStructureFields ct2 ftys fields).map
              (fun vs => addShellsV n (CElemV.tup vs))
          else Except.error MErr.lengthMismatch

/-- The `zip(ct, s._fields_, strict=False)` loop of
`CTypeTree_from_Structure`, elementwise; the declared field types and the
stored field values of a ctypes struct always advance in lock step. -/
def fromStructureFields :
    List CElemT → List STy → List SVal → Except MErr (List CElemV)
  | t :: ts, STy.struct _ :: sts, f :: fs => do
      let v ← CTypeTree_from_Structure (stripMemberShells t).2 f
      let rest ← fromStructureFields ts sts fs
      Except.ok (addShellsV (stripMemberShells t).1 v :: rest)
  | t :: ts, STy.scalar st :: sts, f :: fs => do
      let v ← scalarField t st f
      let rest ← fromStructureFields ts sts fs
      Except.ok (v :: rest)
  | _, _, _ => Except.ok []

end

mutual

/-- Structural shape equality of one type-tree element against one
value-tree element: same nesting everywhere and same length at every level
(the well-formedness required of a `(CTypeTreeType, CTypeTree)` pair). -/
def shapeEqElem : CElemT → CElemV → Bool
  | CElemT.scalar _, CElemV.scalar _ => true
  | CElemT.tup ts, CElemV.tup vs => shapeEqList ts vs
  | _, _ => false

/-- Elementwise shape equality of two lists of tree elements. -/
def shapeEqList : List CElemT → List CElemV → Bool
  | [], [] => true
  | t :: ts, v :: vs => shapeEqElem t v && shapeEqList ts vs
  | _, _ => false

end

mutual

/-- A `CTypeTreeType` tuple whose singleton-shell chain ends in a single
ctype scalar: exactly the trees on which `CTypeTree_to_Structure` returns a
raw value rather than a `Structure` instance. -/
def collapsesToScalar : List CElemT → Bool
  | [] => false
  | [e] => collapsesToScalarE e
  | _ :: _ :: _ => false

/-- Whether a single element is a ctype scalar or a singleton chain that
ends in one. -/
def collapsesToScalarE : CElemT → Bool
  | CElemT.scalar _ => true
  | CElemT.tup ts => collapsesToScalar ts

end

/-! ## Calling-convention adapter (`CTarget` in `frontend.py`)

`get_return_ctypes(f)` is the tuple of `CType()` trees of the declared
return components, i.e. a list of `CTypeTreeType` tuples; it is carried
below as `retCts : List (List CElemT)`.  Likewise `get_args_ctypes(f)` is
`argCts`, with one `CTypeTreeType` per declared parameter (so
`len(sig.parameters) = argCts.length`).  The user arguments have already
passed through `val_to_CType` and arrive as value trees. -/

/-- `CTarget.has_composite_return`: `sum(get_return_ctypes(f), ())`
concatenates the top level of the per-component trees; composite means the
flattened length exceeds 1. -/
def has_composite_return (retCts : List (List CElemT)) : Bool :=
  decide (1 < retCts.flatten.length)

/-- `CTarget.has_void_return`: the flattened return tree is empty. -/
def has_void_return (retCts : List (List CElemT)) : Bool :=
  decide (retCts.flatten.length = 0)

mutual

/-- `CTypeTreeType_to_Structure(ct)()`: instantiating a derived ctype with
no arguments zero-initializes it — a scalar ctype yields the zero value and
a generated `Structure` zero-initializes every field recursively. -/
def zeroOfSTy : STy → SVal
  | STy.scalar _ => SVal.raw 0
  | STy.struct ftys => SVal.inst ftys (zeroOfSTyList ftys)

/-- Zero-initialization of a field list. -/
def zeroOfSTyList : List STy → List SVal
  | [] => []
  | t :: ts => zeroOfSTy t :: zeroOfSTyList ts

end

/-- The `mapped_args` list of `CTarget.call_function`: each user argument's
value tree is paired with its parameter's `CTypeTreeType` and converted by
`CTypeTree_to_Structure` (`zip(..., strict=False)` stops at the shorter
list; the lengths agree whenever the argument-count check has passed). -/
def marshalArgs : List (List CElemT) → List CElemV → Except MErr (List SVal)
  | ct :: cts, a :: rest => do
      let x ← CTypeTree_to_Structure (CElemT.tup ct) a
      let xs ← marshalArgs cts rest
      Except.ok (x :: xs)
  | _, _ => Except.ok []

/-- Observable outcome of `CTarget.call_function`.  The error outcomes carry
no native-call trace: the native symbol is never invoked on them.  The
`retComposite` outcome records the full native argument list (return-struct
pointer first) and the value-tree read back from the struct the callee
wrote. -/
inductive CallResult where
  | errNotCompiled
  | errArgCount (expected actual : Nat)
  | errMarshal (e : MErr)
  | retNone (calledWith : List SVal)
  | retDirect (calledWith : List SVal) (value : Int)
  | retComposite (calledWith : List SVal) (readBack : Except MErr CElemV)

/-- `CTarget.call_function`, with the native shared-object symbol abstracted
into two behaviors: `nativeDirect` is the value a non-void call returns and
`nativeWrite` is the contents of the hidden output struct after a
void-returning composite call (ctypes passes the freshly instantiated
`retval` struct by pointer for the `POINTER(...)` first argtype installed by
`load_function`).  `compiled` is `hasattr(self, "_so")`. -/
def call_function (compiled : Bool) (retCts argCts : List (List CElemT))
    (args : List CElemV) (nativeDirect : List SVal → Int)
    (nativeWrite : List SVal → SVal) : CallResult :=
  if compiled = false then
    CallResult.errNotCompiled
  else if ¬ argCts.length = args.length then
    CallResult.errArgCount argCts.length args.length
  else
    match marshalArgs argCts args with
    | Except.error e => CallResult.errMarshal e
    | Except.ok mapped =>
        if has_void_return retCts then
          CallResult.retNone mapped
        else if ¬ has_composite_return retCts then
          CallResult.retDirect mapped (nativeDirect mapped)
        else
          let retval := zeroOfSTy (toStructTyTup (retCts.map CElemT.tup))
          CallResult.retComposite (retval :: mapped)
            (CTypeTree_from_Structure (CElemT.tup (retCts.map CElemT.tup))
              (nativeWrite (retval :: mapped)))

/-! ## Typed numeric value hierarchy (`pydsl/type.py`) -/

/-- The `Sign` enum of `type.py`. -/
inductive Sign where
  | SIGNED
  | UNSIGNED
deriving DecidableEq, Repr

/-- The error taxonomy of `type.py` constructors and casts: `configError` is
the `TypeError` for a type used without defined width/sign, `rangeError` the
`ValueError` for a literal outside the representable range, `typeError` any
other `TypeError`, `valueError` the `ValueError` of `to_CType` for negative
unsigned values. -/
inductive TyErr where
  | configError
  | rangeError
  | typeError
  | valueError
deriving DecidableEq, Repr

/-- `Int.val_range`: `(-(1 << (width-1)), 1 << (width-1))` for signed and
`(0, (1 << width) - 2)` for unsigned, written with `2 ^ n` for `1 << n`. -/
def Int_val_range (width : Nat) (sign : Sign) : Int × Int :=
  match sign with
  | Sign.SIGNED => (-((2 : Int) ^ (width - 1)), (2 : Int) ^ (width - 1))
  | Sign.UNSIGNED => (0, (2 : Int) ^ width - 2)

/-- `Int.in_range`: `val_range()[0] <= val <= val_range()[1]` — both bounds
inclusive. -/
def Int_in_range (width : Nat) (sign : Sign) (val : Int) : Bool :=
  decide ((Int_val_range width sign).1 ≤ val ∧ val ≤ (Int_val_range width sign).2)

/-- `Int.__init__` on the numeric path, for a real `rep` already rounded to
the integer it is `math.isclose` to (an exact integer input is always close
to itself): `not all([self.width, self.sign])` raises the configuration
`TypeError` (width `None` or `0` is falsy; the `Sign` enum members are
always truthy), then an out-of-range value raises `ValueError`, else the
`arith.ConstantOp` constant is built with that value. -/
def Int_init (width : Nat) (sign : Sign) (rep : Int) : Except TyErr Int :=
  if width = 0 then Except.error TyErr.configError
  else if Int_in_range width sign rep then Except.ok rep
  else Except.error TyErr.rangeError

/-- A Python literal fed to `Bool.__init__`: a `bool` or a non-bool number. -/
inductive PyLit where
  | pybool (b : Bool)
  | pyint (n : Int)
deriving DecidableEq, Repr

/-- `Bool.__init__`: a Python `bool` becomes the width-1 constant `1` or `0`
directly; any other input falls through to `Int.__init__` with `Bool`'s
class-level `width=1, sign=UNSIGNED`. -/
def Bool_init : PyLit → Except TyErr Int
  | PyLit.pybool b => Except.ok (if b then 1 else 0)
  | PyLit.pyint n => Int_init 1 Sign.UNSIGNED n

/-- How a successful `Int.Int` cast builds the target value: adopting the
existing MLIR value at equal width (`_try_casting(self.value)`, whose
`_init_from_mlir_value` checks — `IntegerType`, equal width, signless — all
pass for a value produced by the source type), or a sign-appropriate
extension op at greater width. -/
inductive IntCastOp where
  | adopt
  | extSI
  | extUI
deriving DecidableEq, Repr

/-- The `Int.Int` cast method (`type.py` lines 448-474): differing signs are
a `TypeError`, a smaller target width is a `TypeError`, an equal width
adopts the value, a greater width extends with `ExtSIOp`/`ExtUIOp` by the
source sign. -/
def Int_Int (selfWidth : Nat) (selfSign : Sign) (targetWidth : Nat)
    (targetSign : Sign) : Except TyErr IntCastOp :=
  if ¬ targetSign = selfSign then Except.error TyErr.typeError
  else if targetWidth < selfWidth then Except.error TyErr.typeError
  else if targetWidth = selfWidth then Except.ok IntCastOp.adopt
  else
    Except.ok (match selfSign with
      | Sign.SIGNED => IntCastOp.extSI
      | Sign.UNSIGNED => IntCastOp.extUI)

/-- A Python value fed to `Int.to_CType`: either `int(pyval)` succeeds and
yields `n`, or `int(pyval)` raises. -/
inductive PyArg where
  | intConvertible (n : Int)
  | nonIntConvertible
deriving DecidableEq, Repr

/-- `Int.to_CType` (`type.py` lines 413-432): `int()` failure is a
`TypeError`; `(1 << cls.width) <= pyval` is a `TypeError`; a negative value
for an unsigned type is a `ValueError`; everything else is passed through
unchecked. -/
def Int_to_CType (width : Nat) (sign : Sign) : PyArg → Except TyErr Int
  | PyArg.nonIntConvertible => Except.error TyErr.typeError
  | PyArg.intConvertible n =>
      if (2 : Int) ^ width ≤ n then Except.error TyErr.typeError
      else if sign = Sign.UNSIGNED ∧ n < 0 then Except.error TyErr.valueError
      else Except.ok n

/-! ## The deferred literal type `Number` and its generated operators -/

/-- A host value produced by folding a binary operation at compile time:
Python's numeric operators return numbers, its comparisons return `bool`. -/
inductive HostVal where
  | num (n : Int)
  | bool (b : Bool)
deriving DecidableEq, Repr

/-- The right-hand operand of a `Number` binary operator: another `Number`
or a concrete typed value (`Int`/`Float`/`Index` instance). -/
inductive NumberLike where
  | number (v : Int)
  | concrete (v : Int)
deriving DecidableEq, Repr

/-- What a generated `Number` binary operator does: fold to
`default_ret_type(internal_op(self.value, rhs.value))`, or delegate to the
reflected dunder `getattr(rhs, rdunder_name)(self)` of the concrete
right-hand type. -/
inductive BinOpResult where
  | folded (r : HostVal)
  | delegated (rdunder_name : String) (rhs : NumberLike) (self : Int)
deriving DecidableEq, Repr

/-- `generic_bin_op` from the `method_gen` closure of `type.py`: if the RHS
is also a `Number` the operation folds on the underlying values, else it is
delegated to the RHS's reflected operator method. -/
def generic_bin_op (internal_op : Int → Int → HostVal) (rdunder_name : String)
    (self : Int) (rhs : NumberLike) : BinOpResult :=
  match rhs with
  | NumberLike.number v => BinOpResult.folded (internal_op self v)
  | rhs => BinOpResult.delegated rdunder_name rhs self

/-- Table entry `BinNumberOp("op_add", operator.add, "op_radd", Number)`. -/
def Number_op_add : Int → NumberLike → BinOpResult :=
  generic_bin_op (fun a b => HostVal.num (a + b)) "op_radd"

/-- Table entry `BinNumberOp("op_lt", operator.lt, "op_gt", Bool)`. -/
def Number_op_lt : Int → NumberLike → BinOpResult :=
  generic_bin_op (fun a b => HostVal.bool (decide (a < b))) "op_gt"

/-- Table entry `BinNumberOp("op_eq", operator.le, "op_eq", Bool)` — the
source really binds `operator.le`, not `operator.eq`, as the internal
operation of `op_eq`. -/
def Number_op_eq : Int → NumberLike → BinOpResult :=
  generic_bin_op (fun a b => HostVal.bool (decide (a ≤ b))) "op_eq"

mutual

/-- Every scalar leaf reachable in a native value is `0` — what it means for
a freshly instantiated ctype to be zero-initialized. -/
def allZeroSVal : SVal → Bool
  | SVal.raw v => decide (v = 0)
  | SVal.inst _ fs => allZeroFields fs

/-- Zero-ness of a field list. -/
def allZeroFields : List SVal → Bool
  | [] => true
  | f :: fs => allZeroSVal f && allZeroFields fs

end

/-- What marshalling a well-formed `(CTypeTreeType, CTypeTree)` pair whose
type tuple collapses to a single scalar produces: the member-shell loop
reaches `(m, a)`, the derived native type is the bare scalar `a`, the
marshalled value is the bare raw value `x`, and the value tuple is exactly
`m+...` shells around `x`. -/
structure CollapseWitness (ct : List CElemT) (c : List CElemV)
    (m : Nat) (a : CTy) (x : Int) : Prop where
  strip : stripMemberShellsT ct = (m, CElemT.scalar a)
  sty : toStructTyTup ct = STy.scalar a
  conv : CTypeTree_to_Structure (CElemT.tup ct) (CElemV.tup c) = Except.ok (SVal.raw x)
  shells : CElemV.tup c = addShellsV m (CElemV.scalar x)

/-- What marshalling a well-formed pair whose type tuple does not collapse
to a scalar produces: `n` shells strip down to a tuple `ct2` of length `≠ 1`
shape-matching a similarly stripped value tuple `c2`; the derived type is
the struct of `ct2`'s converted children; conversion yields that struct
instantiated with the converted children `fs`; and reading the fields back
against `ct2` recovers `c2` exactly. -/
structure StructWitness (ct : List CElemT) (c : List CElemV)
    (n : Nat) (ct2 : List CElemT) (c2 : List CElemV) (fs : List SVal) : Prop where
  strip : stripShells ct = some (n, ct2)
  stripM : stripMemberShellsT ct = (n, CElemT.tup ct2)
  len1 : ¬ ct2.length = 1
  shape : shapeEqList ct2 c2 = true
  shells : CElemV.tup c = addShellsV n (CElemV.tup c2)
  sty : toStructTyTup ct = STy.struct (toStructTyList ct2)
  children : toStructureChildren ct2 c2 = Except.ok fs
  conv : CTypeTree_to_Structure (CElemT.tup ct) (CElemV.tup c) =
    Except.ok (SVal.inst (toStructTyList ct2) fs)
  fieldsBack : fromStructureFields ct2 (toStructTyList ct2) fs = Except.ok c2

/-! ## Theorems -/

/-! ### Reduction equations for the marshaller on open tree shapes -/

theorem to_scalar_left (a : CTy) (v : CElemV) :
    CTypeTree_to_Structure (CElemT.scalar a) v = Except.error MErr.depthMismatch := by
  cases v <;> rfl

theorem to_scalar_right (ts : List CElemT) (x : Int) :
    CTypeTree_to_Structure (CElemT.tup ts) (CElemV.scalar x) =
      Except.error MErr.depthMismatch := by
  cases ts with
  | nil => rfl
  | cons t ts => cases t <;> cases ts <;> rfl

theorem to_cons_cons (t1 t2 : CElemT) (ts : List CElemT)
    (v1 v2 : CElemV) (vs : List CElemV) :
    CTypeTree_to_Structure (CElemT.tup (t1 :: t2 :: ts)) (CElemV.tup (v1 :: v2 :: vs)) =
      if (t1 :: t2 :: ts).length = (v1 :: v2 :: vs).length then
        (toStructureChildren (t1 :: t2 :: ts) (v1 :: v2 :: vs)).map
          (fun vals => SVal.inst (toStructTyList (t1 :: t2 :: ts)) vals)
      else Except.error MErr.lengthMismatch := by
  cases t1 <;> cases v1 <;> rfl

theorem to_one_many (t : CElemT) (v1 v2 : CElemV) (vs : List CElemV) :
    CTypeTree_to_Structure (CElemT.tup [t]) (CElemV.tup (v1 :: v2 :: vs)) =
      Except.error MErr.lengthMismatch := by
  cases t <;> cases v1 <;> rfl

theorem to_many_one (t1 t2 : CElemT) (ts : List CElemT) (v : CElemV) :
    CTypeTree_to_Structure (CElemT.tup (t1 :: t2 :: ts)) (CElemV.tup [v]) =
      Except.error MErr.lengthMismatch := by
  cases t1 <;> cases v <;> rfl

theorem to_some_nil (t : CElemT) (ts : List CElemT) :
    CTypeTree_to_Structure (CElemT.tup (t :: ts)) (CElemV.tup []) =
      Except.error MErr.lengthMismatch := by
  cases t <;> cases ts <;> rfl

theorem to_nil_some (v : CElemV) (vs : List CElemV) :
    CTypeTree_to_Structure (CElemT.tup []) (CElemV.tup (v :: vs)) =
      Except.error MErr.lengthMismatch := by
  cases v <;> cases vs <;> rfl

theorem children_scalar_scalar (a : CTy) (ts : List CElemT) (x : Int)
    (vs : List CElemV) :
    toStructureChildren (CElemT.scalar a :: ts) (CElemV.scalar x :: vs) =
      (toStructureChildren ts vs).bind
        (fun rest => Except.ok (SVal.raw x :: rest)) := rfl

theorem children_scalar_tup (a : CTy) (ts : List CElemT) (ws : List CElemV)
    (vs : List CElemV) :
    toStructureChildren (CElemT.scalar a :: ts) (CElemV.tup ws :: vs) =
      (CTypeTree_to_Structure (CElemT.scalar a) (CElemV.tup ws)).bind
        (fun x => (toStructureChildren ts vs).bind
          (fun rest => Except.ok (x :: rest))) := rfl

theorem children_tup_any (us : List CElemT) (ts : List CElemT) (v : CElemV)
    (vs : List CElemV) :
    toStructureChildren (CElemT.tup us :: ts) (v :: vs) =
      (CTypeTree_to_Structure (CElemT.tup us) v).bind
        (fun x => (toStructureChildren ts vs).bind
          (fun rest => Except.ok (x :: rest))) := by
  cases v <;> rfl

theorem from_inst (ct : List CElemT) (ftys : List STy) (fields : List SVal) :
    CTypeTree_from_Structure (CElemT.tup ct) (SVal.inst ftys fields) =
      match stripShells ct with
      | none => Except.error MErr.nonterm
      | some (n, ct2) =>
          if ct2.length = ftys.length then
            (fromStructureFields ct2 ftys fields).map
              (fun vs => addShellsV n (CElemV.tup vs))
          else Except.error MErr.lengthMismatch := rfl

theorem fields_struct_head (t : CElemT) (ts : List CElemT) (fl sts : List STy)
    (f : SVal) (fs : List SVal) :
    fromStructureFields (t :: ts) (STy.struct fl :: sts) (f :: fs) =
      (CTypeTree_from_Structure (stripMemberShells t).2 f).bind
        (fun v => (fromStructureFields ts sts fs).bind
          (fun rest => Except.ok (addShellsV (stripMemberShells t).1 v :: rest))) := rfl

theorem fields_scalar_head (t : CElemT) (ts : List CElemT) (st : CTy)
    (sts : List STy) (f : SVal) (fs : List SVal) :
    fromStructureFields (t :: ts) (STy.scalar st :: sts) (f :: fs) =
      (scalarField t st f).bind
        (fun v => (fromStructureFields ts sts fs).bind
          (fun rest => Except.ok (v :: rest))) := rfl

/-! ### Shape and length helper lemmas -/

theorem shapeEqList_length : ∀ (ct : List CElemT) (c : List CElemV),
    shapeEqList ct c = true → ct.length = c.length := by
  intro ct
  induction ct with
  | nil => intro c h; cases c with
      | nil => rfl
      | cons v vs => simp [shapeEqList] at h
  | cons t ts ih =>
      intro c h
      cases c with
      | nil => simp [shapeEqList] at h
      | cons v vs =>
          simp only [shapeEqList, Bool.and_eq_true] at h
          simp [ih vs h.2]

theorem toStructTyList_length (ct : List CElemT) :
    (toStructTyList ct).length = ct.length := by
  induction ct with
  | nil => rfl
  | cons t ts ih => simp [toStructTyList, ih]

theorem stripShells_of_ne1 (l : List CElemT) (h : ¬ l.length = 1) :
    stripShells l = some (0, l) := by
  cases l with
  | nil => rfl
  | cons e es => cases es with
      | nil => simp at h
      | cons e2 es2 => rfl

/-- C4: the claim states that `Int(width, sign)` construction succeeds
exactly on `[-2^(w-1), 2^(w-1)-1]` for signed types.  The code's
`Int.val_range` returns `(-(1 << (w-1)), 1 << (w-1))` and `in_range` treats
both bounds as inclusive, so `Int(width=8, signed)` built from `128` — one
above the largest representable 8-bit two's-complement value `127` —
passes the range check and succeeds, where the claim requires a range
error.  The unsigned boundary facts of the claim (`0` and `254` accepted,
`255` and `-1` rejected) do hold. -/
theorem C4_signed_upper_bound_bug :
    Int_init 8 Sign.SIGNED 128 = Except.ok 128 ∧
    Int_val_range 8 Sign.SIGNED = (-128, 128) ∧
    Int_init 8 Sign.SIGNED 129 = Except.error TyErr.rangeError ∧
    Int_init 8 Sign.SIGNED (-128) = Except.ok (-128) ∧
    Int_init 8 Sign.SIGNED (-129) = Except.error TyErr.rangeError ∧
    Int_init 8 Sign.UNSIGNED 0 = Except.ok 0 ∧
    Int_init 8 Sign.UNSIGNED 254 = Except.ok 254 ∧
    Int_init 8 Sign.UNSIGNED 255 = Except.error TyErr.rangeError ∧
    Int_init 8 Sign.UNSIGNED (-1) = Except.error TyErr.rangeError :=
  ⟨rfl, rfl, rfl, rfl, rfl, rfl, rfl, rfl, rfl⟩

/-- C9: `Bool(True)` and `Bool(False)` succeed with the width-1 constants
`1` and `0`, while the Python integer `1` takes the inherited `Int.__init__`
path, whose unsigned width-1 range under the exclusive upper bound is
`[0, 2^1 - 2] = [0, 0]`, so `Bool(1)` raises the range `ValueError` and
`Bool(0)` succeeds. -/
theorem C9_bool_construction_asymmetry :
    Bool_init (PyLit.pybool true) = Except.ok 1 ∧
    Bool_init (PyLit.pybool false) = Except.ok 0 ∧
    Bool_init (PyLit.pyint 1) = Except.error TyErr.rangeError ∧
    Bool_init (PyLit.pyint 0) = Except.ok 0 ∧
    Int_val_range 1 Sign.UNSIGNED = (0, 0) :=
  ⟨rfl, rfl, rfl, rfl, rfl⟩

/-- C7: the claim states `a.op_eq(b)` folds to the `Bool` of the host
equality `a.value == b.value`.  The operator table entry
`BinNumberOp("op_eq", operator.le, "op_eq", Bool)` binds `operator.le`
instead, so `Number(1).op_eq(Number(2))` folds to `Bool(1 <= 2) =
Bool(True)` although `1 == 2` is false.  `op_lt` folds correctly and a
concrete right operand is delegated to the reflected dunder, as the claim
says. -/
theorem C7_op_eq_folds_le_bug :
    Number_op_eq 1 (NumberLike.number 2) = BinOpResult.folded (HostVal.bool true) ∧
    ¬ ((1 : Int) = 2) ∧
    Number_op_lt 1 (NumberLike.number 2) = BinOpResult.folded (HostVal.bool true) ∧
    Number_op_lt 2 (NumberLike.number 1) = BinOpResult.folded (HostVal.bool false) ∧
    Number_op_add 3 (NumberLike.number 4) = BinOpResult.folded (HostVal.num 7) ∧
    Number_op_lt 1 (NumberLike.concrete 5) =
      BinOpResult.delegated "op_gt" (NumberLike.concrete 5) 1 ∧
    Number_op_eq 1 (NumberLike.concrete 5) =
      BinOpResult.delegated "op_eq" (NumberLike.concrete 5) 1 :=
  ⟨rfl, by decide, rfl, rfl, rfl, rfl, rfl⟩

/-- C5: the `Int.Int` cast succeeds exactly when the target sign is
identical and the target width is equal or greater (adopting the value at
equal width, extending sign-appropriately at greater width); narrowing and
sign-changing casts raise `TypeError`, as do the claim's three concrete
cases. -/
theorem C5_int_to_int_cast (sw tw : Nat) (ss ts : Sign) :
    ((∃ op, Int_Int sw ss tw ts = Except.ok op) ↔ (ts = ss ∧ sw ≤ tw)) ∧
    (ts = ss → tw = sw → Int_Int sw ss tw ts = Except.ok IntCastOp.adopt) ∧
    (ts = ss → sw < tw →
      Int_Int sw ss tw ts =
        Except.ok (match ss with
          | Sign.SIGNED => IntCastOp.extSI
          | Sign.UNSIGNED => IntCastOp.extUI)) ∧
    (¬ ts = ss → Int_Int sw ss tw ts = Except.error TyErr.typeError) ∧
    (tw < sw → Int_Int sw ss tw ts = Except.error TyErr.typeError) ∧
    (Int_Int 8 Sign.SIGNED 8 Sign.SIGNED = Except.ok IntCastOp.adopt) ∧
    (Int_Int 8 Sign.SIGNED 4 Sign.SIGNED = Except.error TyErr.typeError) ∧
    (Int_Int 8 Sign.SIGNED 8 Sign.UNSIGNED = Except.error TyErr.typeError) := by
  unfold Int_Int
  by_cases h1 : ts = ss
  · by_cases h2 : tw < sw
    · simp only [h1, h2]
      refine ⟨?_, ?_, ?_, ?_, ?_, rfl, rfl, rfl⟩ <;> simp_all <;> omega
    · by_cases h3 : tw = sw
      · simp only [h1, h3]
        refine ⟨?_, ?_, ?_, ?_, ?_, rfl, rfl, rfl⟩ <;> simp_all
      · simp only [h1, h2, h3]
        refine ⟨?_, ?_, ?_, ?_, ?_, rfl, rfl, rfl⟩ <;> simp_all
  · simp only [h1]
    refine ⟨?_, ?_, ?_, ?_, ?_, rfl, rfl, rfl⟩ <;> simp_all
/-- Witness for C5 at concrete inputs. -/
theorem C5_int_to_int_cast_witness :
    Int_Int 8 Sign.SIGNED 16 Sign.SIGNED = Except.ok IntCastOp.extSI ∧
    Int_Int 16 Sign.UNSIGNED 16 Sign.UNSIGNED = Except.ok IntCastOp.adopt :=
  ⟨(C5_int_to_int_cast 8 16 Sign.SIGNED Sign.SIGNED).2.2.1 rfl (by omega),
   (C5_int_to_int_cast 16 16 Sign.UNSIGNED Sign.UNSIGNED).2.1 rfl rfl⟩

/-- C10: `Int.to_CType` raises exactly when `int()` fails, when
`2^width <= int(pyval)`, or when the type is unsigned and the value is
negative; in particular a signed type accepts every value below `2^width`,
including every negative integer of arbitrary magnitude and the whole band
`[2^(w-1), 2^w - 1]` above the construction range — a strictly weaker check
than `in_range` (for any defined width, construction-accepted values are
marshalling-accepted). -/
theorem C10_to_CType_weak_check (w : Nat) (s : Sign) (n : Int) :
    (Int_to_CType w s PyArg.nonIntConvertible = Except.error TyErr.typeError) ∧
    ((∃ e, Int_to_CType w s (PyArg.intConvertible n) = Except.error e) ↔
      ((2 : Int) ^ w ≤ n ∨ (s = Sign.UNSIGNED ∧ n < 0))) ∧
    (n < (2 : Int) ^ w →
      Int_to_CType w Sign.SIGNED (PyArg.intConvertible n) = Except.ok n) ∧
    (1 ≤ w → Int_in_range w s n = true →
      Int_to_CType w s (PyArg.intConvertible n) = Except.ok n) := by
  have hpow : (2 : Int) ^ (w - 1) < 2 ^ w ∨ w = 0 := by
    rcases Nat.eq_zero_or_pos w with h | h
    · exact Or.inr h
    · exact Or.inl (pow_lt_pow_right₀ one_lt_two (by omega))
  refine ⟨rfl, ?_, ?_, ?_⟩
  · unfold Int_to_CType
    by_cases h1 : (2 : Int) ^ w ≤ n
    · simp [h1]
    · by_cases h2 : s = Sign.UNSIGNED ∧ n < 0
      · simp [h1, h2]
      · simp [h1, h2]
  · intro h1
    unfold Int_to_CType
    simp [not_le.mpr h1]
  · intro hw hin
    unfold Int_to_CType
    unfold Int_in_range Int_val_range at hin
    rcases s with _ | _ <;> simp only [decide_eq_true_eq] at hin
    · have h1 : ¬ (2 : Int) ^ w ≤ n := by
        rcases hpow with hp | hp
        · omega
        · omega
      simp [h1]
    · have h1 : ¬ (2 : Int) ^ w ≤ n := by omega
      have h2 : ¬ n < 0 := by omega
      simp [h1, h2]
mutual

/-- A freshly instantiated derived ctype is zero-initialized: every leaf of
`zeroOfSTy` is `0`. -/
theorem allZeroSVal_zeroOfSTy : ∀ sty : STy, allZeroSVal (zeroOfSTy sty) = true
  | STy.scalar _ => rfl
  | STy.struct ftys => allZeroFields_zeroOfSTyList ftys

/-- Field lists of a freshly instantiated struct are zero-initialized. -/
theorem allZeroFields_zeroOfSTyList :
    ∀ l : List STy, allZeroFields (zeroOfSTyList l) = true
  | [] => rfl
  | t :: ts => by
      simp only [zeroOfSTyList, allZeroFields, Bool.and_eq_true]
      exact ⟨allZeroSVal_zeroOfSTy t, allZeroFields_zeroOfSTyList ts⟩

end

/-- C8: calling a function whose target has no compiled shared object is the
fatal `RuntimeError` before anything else happens, and an argument-count
mismatch against the declared signature is a `TypeError` carrying both the
expected and the actual counts; in both cases the outcome is independent of
the native function's behavior — the native symbol is never invoked. -/
theorem C8_invocation_errors (retCts argCts : List (List CElemT))
    (args : List CElemV) (nd nd2 : List SVal → Int) (nw nw2 : List SVal → SVal) :
    (call_function false retCts argCts args nd nw = CallResult.errNotCompiled) ∧
    (¬ argCts.length = args.length →
      call_function true retCts argCts args nd nw =
        CallResult.errArgCount argCts.length args.length) ∧
    (call_function false retCts argCts args nd nw =
      call_function false retCts argCts args nd2 nw2) ∧
    (¬ argCts.length = args.length →
      call_function true retCts argCts args nd nw =
        call_function true retCts argCts args nd2 nw2) := by
  unfold call_function
  refine ⟨rfl, ?_, rfl, ?_⟩ <;> intro h <;> simp [h]
/-- Witness for C8 at a concrete input: one declared parameter, zero
arguments. -/
theorem C8_invocation_errors_witness :
    call_function true [] [[CElemT.scalar CTy.c_int32]] []
        (fun _ => 0) (fun _ => SVal.raw 0) = CallResult.errArgCount 1 0 :=
  (C8_invocation_errors [] [[CElemT.scalar CTy.c_int32]] []
    (fun _ => 0) (fun _ => 0) (fun _ => SVal.raw 0) (fun _ => SVal.raw 0)).2.1
    (by decide)

/-- C2: with a compiled target, a matching argument count and successfully
marshalled arguments, `call_function` dispatches on the flattened leaf count
of the return `CTypeTreeType`: `0` leaves call the native function with
exactly the user arguments and return `None`; exactly `1` leaf uses the
native function's direct return value; more than `1` leaf treats the symbol
as void-returning, prepends a pointer to a freshly allocated struct of the
return tree's derived type — zero-initialized, as the final conjunct states
for every struct type — before all user arguments, and reads the result
back from that struct with `CTypeTree_from_Structure`. -/
theorem C2_composite_return_convention (retCts argCts : List (List CElemT))
    (args : List CElemV) (mapped : List SVal)
    (nd : List SVal → Int) (nw : List SVal → SVal)
    (hlen : argCts.length = args.length)
    (hm : marshalArgs argCts args = Except.ok mapped) :
    (retCts.flatten.length = 0 →
      call_function true retCts argCts args nd nw = CallResult.retNone mapped) ∧
    (retCts.flatten.length = 1 →
      call_function true retCts argCts args nd nw =
        CallResult.retDirect mapped (nd mapped)) ∧
    (1 < retCts.flatten.length →
      call_function true retCts argCts args nd nw =
        CallResult.retComposite
          (zeroOfSTy (toStructTyTup (retCts.map CElemT.tup)) :: mapped)
          (CTypeTree_from_Structure (CElemT.tup (retCts.map CElemT.tup))
            (nw (zeroOfSTy (toStructTyTup (retCts.map CElemT.tup)) :: mapped)))) ∧
    (∀ sty, allZeroSVal (zeroOfSTy sty) = true) := by
  unfold call_function
  simp only [hlen, not_true_eq_false, if_false, Bool.false_eq_true, if_true, hm]
  refine ⟨?_, ?_, ?_, allZeroSVal_zeroOfSTy⟩ <;> intro h
  · simp [has_void_return, has_composite_return, h]
  · simp [has_void_return, has_composite_return, h]
  · rw [List.length_flatten] at h
    have h1 : ¬ (retCts.map List.length).sum = 0 := by omega
    have h2 : ¬ (retCts.map List.length).sum ≤ 1 := by omega
    simp [has_void_return, has_composite_return, h1, h2]
/-- Witness for C2 at a concrete input: a two-component return type, no
arguments, with a native behavior writing `7` and `8` into the hidden output
struct. -/
theorem C2_composite_return_convention_witness :
    call_function true [[CElemT.scalar CTy.c_int32], [CElemT.scalar CTy.c_int32]]
        [] [] (fun _ => 0)
        (fun _ => SVal.inst [STy.scalar CTy.c_int32, STy.scalar CTy.c_int32]
          [SVal.raw 7, SVal.raw 8])
      = CallResult.retComposite
          [SVal.inst [STy.scalar CTy.c_int32, STy.scalar CTy.c_int32]
            [SVal.raw 0, SVal.raw 0]]
          (Except.ok (CElemV.tup
            [CElemV.tup [CElemV.scalar 7], CElemV.tup [CElemV.scalar 8]])) := by
  have h := (C2_composite_return_convention
    [[CElemT.scalar CTy.c_int32], [CElemT.scalar CTy.c_int32]] [] [] []
    (fun _ => 0)
    (fun _ => SVal.inst [STy.scalar CTy.c_int32, STy.scalar CTy.c_int32]
      [SVal.raw 7, SVal.raw 8]) rfl rfl).2.2.1 (by decide)
  exact h.trans rfl

/-- A singleton-shell chain around a scalar converts to that scalar ctype,
for any chain depth. -/
theorem toStructTyElem_chain (x : CTy) :
    ∀ n, toStructTyElem (addShellsT n (CElemT.scalar x)) = STy.scalar x := by
  intro n
  induction n with
  | zero => rfl
  | succ n ih =>
      show toStructTyTup [addShellsT n (CElemT.scalar x)] = STy.scalar x
      show toStructTyElem (addShellsT n (CElemT.scalar x)) = STy.scalar x
      exact ih

/-- The top-level shell loop of `CTypeTree_from_Structure` never terminates
on a singleton chain that ends in a scalar. -/
theorem stripShells_chain (x : CTy) :
    ∀ n, stripShells [addShellsT n (CElemT.scalar x)] = none := by
  intro n
  induction n with
  | zero => rfl
  | succ n ih =>
      show stripShellsE (CElemT.tup [addShellsT n (CElemT.scalar x)]) = none
      unfold stripShellsE
      rw [ih]

/-- The member shell loop strips a chain completely, counting its depth. -/
theorem stripMemberShells_chain (x : CTy) :
    ∀ n, stripMemberShells (addShellsT n (CElemT.scalar x)) = (n, CElemT.scalar x) := by
  intro n
  induction n with
  | zero => rfl
  | succ n ih =>
      show stripMemberShellsT [addShellsT n (CElemT.scalar x)] = _
      unfold stripMemberShellsT
      rw [ih]

/-- Marshalling a shell chain around a scalar value yields the raw value,
never a struct, at any depth. -/
theorem toStructure_chain (x : CTy) (v : Int) :
    ∀ n, CTypeTree_to_Structure (addShellsT (n + 1) (CElemT.scalar x))
      (addShellsV (n + 1) (CElemV.scalar v)) = Except.ok (SVal.raw v) := by
  intro n
  induction n with
  | zero => rfl
  | succ n ih =>
      show CTypeTree_to_Structure
        (CElemT.tup [addShellsT (n + 1) (CElemT.scalar x)])
        (CElemV.tup [addShellsV (n + 1) (CElemV.scalar v)]) = _
      rw [show addShellsT (n + 1) (CElemT.scalar x) =
            CElemT.tup [addShellsT n (CElemT.scalar x)] from rfl,
          show addShellsV (n + 1) (CElemV.scalar v) =
            CElemV.tup [addShellsV n (CElemV.scalar v)] from rfl]
      show CTypeTree_to_Structure (CElemT.tup [addShellsT n (CElemT.scalar x)])
        (CElemV.tup [addShellsV n (CElemV.scalar v)]) = _
      exact ih

/-- C3: a chain of `n+1` length-1 wrappers around a scalar behaves exactly
as the singly-wrapped scalar at all three conversions — it converts to the
same (scalar, non-struct) native type, produces the same raw (non-struct)
value for matching shell-wrapped values, and `CTypeTree_from_Structure`
treats both trees identically on every input; when such a chain appears as
a struct member, unmarshalling re-adds exactly the chain's shells around
the scalar value, reconstructing the original nested shape without any
extra composite level. -/
theorem C3_shell_chain_collapsing (n : Nat) (x : CTy) (v : Int) (s : SVal) :
    CTypeTreeType_to_Structure (addShellsT (n + 1) (CElemT.scalar x)) =
      CTypeTreeType_to_Structure (CElemT.tup [CElemT.scalar x]) ∧
    CTypeTreeType_to_Structure (addShellsT (n + 1) (CElemT.scalar x)) =
      Except.ok (STy.scalar x) ∧
    CTypeTree_to_Structure (addShellsT (n + 1) (CElemT.scalar x))
        (addShellsV (n + 1) (CElemV.scalar v)) =
      CTypeTree_to_Structure (CElemT.tup [CElemT.scalar x])
        (CElemV.tup [CElemV.scalar v]) ∧
    CTypeTree_to_Structure (addShellsT (n + 1) (CElemT.scalar x))
        (addShellsV (n + 1) (CElemV.scalar v)) = Except.ok (SVal.raw v) ∧
    CTypeTree_from_Structure (addShellsT (n + 1) (CElemT.scalar x)) s =
      CTypeTree_from_Structure (CElemT.tup [CElemT.scalar x]) s ∧
    scalarField (addShellsT n (CElemT.scalar x)) x (SVal.raw v) =
      Except.ok (addShellsV n (CElemV.scalar v)) := by
  have hty : CTypeTreeType_to_Structure (addShellsT (n + 1) (CElemT.scalar x)) =
      Except.ok (STy.scalar x) := by
    show Except.ok (toStructTyTup [addShellsT n (CElemT.scalar x)]) = _
    show Except.ok (toStructTyElem (addShellsT n (CElemT.scalar x))) = _
    rw [toStructTyElem_chain]
  have hto := toStructure_chain x v n
  refine ⟨hty.trans rfl, hty, hto.trans rfl, hto, ?_, ?_⟩
  · cases s with
    | raw w => rfl
    | inst ftys fields =>
        show CTypeTree_from_Structure
          (CElemT.tup [addShellsT n (CElemT.scalar x)]) _ = _
        unfold CTypeTree_from_Structure
        rw [stripShells_chain]
        rfl
  · unfold scalarField
    rw [stripMemberShells_chain]
    simp

/-- Witness for C10 at concrete inputs. -/
theorem C10_to_CType_weak_check_witness :
    Int_to_CType 8 Sign.SIGNED (PyArg.intConvertible 255) = Except.ok 255 ∧
    Int_to_CType 8 Sign.UNSIGNED (PyArg.intConvertible 10) = Except.ok 10 :=
  ⟨(C10_to_CType_weak_check 8 Sign.SIGNED 255).2.2.1 (by decide),
   (C10_to_CType_weak_check 8 Sign.UNSIGNED 10).2.2.2 (by decide) (by decide)⟩

theorem marshal_spec : ∀ (k : Nat) (c : List CElemV) (ct : List CElemT),
    sizeOf c ≤ k → shapeEqList ct c = true →
    (collapsesToScalar ct = true → ∃ m a x, CollapseWitness ct c m a x) ∧
    (collapsesToScalar ct = false → ∃ n ct2 c2 fs, StructWitness ct c n ct2 c2 fs) := by
  intro k
  induction k with
  | zero =>
      intro c ct hsz _
      exfalso
      cases c <;> simp_arith at hsz
  | succ k ih =>
      have children_spec : ∀ (c' : List CElemV) (ct' : List CElemT),
          sizeOf c' ≤ k + 1 → shapeEqList ct' c' = true →
          ∃ fs, toStructureChildren ct' c' = Except.ok fs ∧
            fromStructureFields ct' (toStructTyList ct') fs = Except.ok c' := by
        intro c'
        induction c' with
        | nil =>
            intro ct' hsz hsh
            cases ct' with
            | nil => exact ⟨[], rfl, rfl⟩
            | cons t ts => simp [shapeEqList] at hsh
        | cons v vs ihl =>
            intro ct' hsz hsh
            cases ct' with
            | nil => simp [shapeEqList] at hsh
            | cons t ts =>
                simp only [shapeEqList, Bool.and_eq_true] at hsh
                obtain ⟨h1, h2⟩ := hsh
                have hszvs : sizeOf vs ≤ k + 1 := by
                  simp_arith at hsz; omega
                obtain ⟨rest, hrc, hrf⟩ := ihl ts hszvs h2
                cases t with
                | scalar a =>
                    cases v with
                    | scalar x =>
                        refine ⟨SVal.raw x :: rest, ?_, ?_⟩
                        · rw [children_scalar_scalar, hrc]
                          rfl
                        · show fromStructureFields (CElemT.scalar a :: ts)
                            (STy.scalar a :: toStructTyList ts) (SVal.raw x :: rest) =
                            Except.ok (CElemV.scalar x :: vs)
                          rw [fields_scalar_head]
                          have hsf : scalarField (CElemT.scalar a) a (SVal.raw x) =
                              Except.ok (CElemV.scalar x) := by
                            unfold scalarField
                            simp [stripMemberShells, addShellsV]
                          rw [hsf, hrf]
                          rfl
                    | tup ws => simp [shapeEqElem] at h1
                | tup us =>
                    cases v with
                    | scalar x => simp [shapeEqElem] at h1
                    | tup ws =>
                        have h1' : shapeEqList us ws = true := by
                          simpa [shapeEqElem] using h1
                        have hszws : sizeOf ws ≤ k := by
                          simp_arith at hsz; omega
                        obtain ⟨hA, hB⟩ := ih ws us hszws h1'
                        by_cases hcol : collapsesToScalar us = true
                        · obtain ⟨m, a, x, cw⟩ := hA hcol
                          refine ⟨SVal.raw x :: rest, ?_, ?_⟩
                          · rw [children_tup_any, cw.conv, hrc]
                            rfl
                          · have hst : toStructTyList (CElemT.tup us :: ts) =
                                STy.scalar a :: toStructTyList ts := by
                              show toStructTyElem (CElemT.tup us) :: toStructTyList ts = _
                              rw [show toStructTyElem (CElemT.tup us) =
                                    toStructTyTup us from rfl, cw.sty]
                            rw [hst, fields_scalar_head]
                            have hsf : scalarField (CElemT.tup us) a (SVal.raw x) =
                                Except.ok (CElemV.tup ws) := by
                              unfold scalarField
                              rw [show stripMemberShells (CElemT.tup us) =
                                    stripMemberShellsT us from rfl, cw.strip]
                              simp [cw.shells]
                            rw [hsf, hrf]
                            rfl
                        · have hcol2 : collapsesToScalar us = false := by
                            cases hcc : collapsesToScalar us with
                            | true => exact absurd hcc hcol
                            | false => rfl
                          obtain ⟨n, ct2, c2, fs2, sw⟩ := hB hcol2
                          refine ⟨SVal.inst (toStructTyList ct2) fs2 :: rest, ?_, ?_⟩
                          · rw [children_tup_any, sw.conv, hrc]
                            rfl
                          · have hst : toStructTyList (CElemT.tup us :: ts) =
                                STy.struct (toStructTyList ct2) :: toStructTyList ts := by
                              show toStructTyElem (CElemT.tup us) :: toStructTyList ts = _
                              rw [show toStructTyElem (CElemT.tup us) =
                                    toStructTyTup us from rfl, sw.sty]
                            rw [hst, fields_struct_head]
                            rw [show stripMemberShells (CElemT.tup us) =
                                  stripMemberShellsT us from rfl, sw.stripM]
                            rw [from_inst, stripShells_of_ne1 ct2 sw.len1]
                            simp only [if_pos (toStructTyList_length ct2).symm, sw.fieldsBack,
                              Except.map, hrf]
                            show Except.ok (addShellsV n (addShellsV 0 (CElemV.tup c2)) :: vs) = _
                            rw [show addShellsV 0 (CElemV.tup c2) = CElemV.tup c2 from rfl,
                              ← sw.shells]
      intro c ct hsz hsh
      cases ct with
      | nil =>
          cases c with
          | nil =>
              refine ⟨fun hcol => by simp [collapsesToScalar] at hcol, fun _ => ?_⟩
              exact ⟨0, [], [], [],
                { strip := rfl, stripM := rfl, len1 := by simp, shape := rfl,
                  shells := rfl, sty := rfl, children := rfl, conv := rfl,
                  fieldsBack := rfl }⟩
          | cons v vs => simp [shapeEqList] at hsh
      | cons t ts =>
          cases c with
          | nil => simp [shapeEqList] at hsh
          | cons v vs =>
              have hsh0 := hsh
              simp only [shapeEqList, Bool.and_eq_true] at hsh
              obtain ⟨h1, h2⟩ := hsh
              cases ts with
              | nil =>
                  cases vs with
                  | cons v2 vs2 => simp [shapeEqList] at h2
                  | nil =>
                      cases t with
                      | scalar a =>
                          cases v with
                          | tup ws => simp [shapeEqElem] at h1
                          | scalar x =>
                              refine ⟨fun _ => ?_, fun hcol => by
                                simp [collapsesToScalar, collapsesToScalarE] at hcol⟩
                              exact ⟨1, a, x,
                                { strip := rfl, sty := rfl, conv := rfl, shells := rfl }⟩
                      | tup us =>
                          cases v with
                          | scalar x => simp [shapeEqElem] at h1
                          | tup ws =>
                              have h1w : shapeEqList us ws = true := by
                                simpa [shapeEqElem] using h1
                              have hszws : sizeOf ws ≤ k := by
                                simp_arith at hsz; omega
                              obtain ⟨hA, hB⟩ := ih ws us hszws h1w
                              have hcoleq : collapsesToScalar [CElemT.tup us] =
                                  collapsesToScalar us := rfl
                              constructor
                              · intro hcol
                                obtain ⟨m, a, x, cw⟩ := hA (hcoleq ▸ hcol)
                                refine ⟨m + 1, a, x, ?_⟩
                                refine { strip := ?_, sty := ?_, conv := ?_, shells := ?_ }
                                · show ((stripMemberShells (CElemT.tup us)).1 + 1,
                                    (stripMemberShells (CElemT.tup us)).2) = _
                                  rw [show stripMemberShells (CElemT.tup us) =
                                      stripMemberShellsT us from rfl, cw.strip]
                                · show toStructTyElem (CElemT.tup us) = _
                                  rw [show toStructTyElem (CElemT.tup us) =
                                      toStructTyTup us from rfl, cw.sty]
                                · show CTypeTree_to_Structure (CElemT.tup us)
                                    (CElemV.tup ws) = _
                                  exact cw.conv
                                · show CElemV.tup [CElemV.tup ws] =
                                    CElemV.tup [addShellsV m (CElemV.scalar x)]
                                  rw [← cw.shells]
                              · intro hcol
                                obtain ⟨n, ct2, c2, fs2, sw⟩ := hB (hcoleq ▸ hcol)
                                refine ⟨n + 1, ct2, c2, fs2, ?_⟩
                                refine { strip := ?_, stripM := ?_, len1 := sw.len1,
                                         shape := sw.shape, shells := ?_, sty := ?_,
                                         children := sw.children, conv := ?_,
                                         fieldsBack := sw.fieldsBack }
                                · show stripShellsE (CElemT.tup us) = _
                                  unfold stripShellsE
                                  rw [sw.strip]
                                · show ((stripMemberShells (CElemT.tup us)).1 + 1,
                                    (stripMemberShells (CElemT.tup us)).2) = _
                                  rw [show stripMemberShells (CElemT.tup us) =
                                      stripMemberShellsT us from rfl, sw.stripM]
                                · show CElemV.tup [CElemV.tup ws] =
                                    CElemV.tup [addShellsV n (CElemV.tup c2)]
                                  rw [← sw.shells]
                                · show toStructTyElem (CElemT.tup us) = _
                                  rw [show toStructTyElem (CElemT.tup us) =
                                      toStructTyTup us from rfl, sw.sty]
                                · show CTypeTree_to_Structure (CElemT.tup us)
                                    (CElemV.tup ws) = _
                                  exact sw.conv
              | cons t2 ts2 =>
                  cases vs with
                  | nil => simp [shapeEqList] at h2
                  | cons v2 vs2 =>
                      refine ⟨fun hcol => by simp [collapsesToScalar] at hcol, fun _ => ?_⟩
                      have hlen : (t :: t2 :: ts2).length = (v :: v2 :: vs2).length :=
                        shapeEqList_length _ _ hsh0
                      obtain ⟨fs, hfc, hff⟩ :=
                        children_spec (v :: v2 :: vs2) (t :: t2 :: ts2) hsz hsh0
                      refine ⟨0, t :: t2 :: ts2, v :: v2 :: vs2, fs, ?_⟩
                      refine { strip := rfl, stripM := rfl, len1 := by simp,
                               shape := hsh0, shells := rfl, sty := rfl,
                               children := hfc, conv := ?_, fieldsBack := hff }
                      rw [to_cons_cons, if_pos hlen, hfc]
                      rfl

theorem to_length_mismatch : ∀ (ct : List CElemT) (c : List CElemV),
    ¬ ct.length = c.length →
    CTypeTree_to_Structure (CElemT.tup ct) (CElemV.tup c) =
      Except.error MErr.lengthMismatch := by
  intro ct c hlen
  cases ct with
  | nil =>
      cases c with
      | nil => simp at hlen
      | cons v vs => exact to_nil_some v vs
  | cons t ts =>
      cases c with
      | nil => exact to_some_nil t ts
      | cons v vs =>
          cases ts with
          | nil =>
              cases vs with
              | nil => simp at hlen
              | cons v2 vs2 => exact to_one_many t v v2 vs2
          | cons t2 ts2 =>
              cases vs with
              | nil => exact to_many_one t t2 ts2 v
              | cons v2 vs2 => rw [to_cons_cons, if_neg hlen]

theorem mismatch_spec : ∀ (k : Nat) (c : List CElemV) (ct : List CElemT),
    sizeOf c ≤ k → shapeEqList ct c = false →
    ∃ e, CTypeTree_to_Structure (CElemT.tup ct) (CElemV.tup c) = Except.error e ∧
      (e = MErr.depthMismatch ∨ e = MErr.lengthMismatch) := by
  intro k
  induction k with
  | zero => intro c ct hsz _; exfalso; cases c <;> simp_arith at hsz
  | succ k ih =>
      have children_mismatch : ∀ (c' : List CElemV) (ct' : List CElemT),
          sizeOf c' ≤ k + 1 → ct'.length = c'.length → shapeEqList ct' c' = false →
          ∃ e, toStructureChildren ct' c' = Except.error e ∧
            (e = MErr.depthMismatch ∨ e = MErr.lengthMismatch) := by
        intro c'
        induction c' with
        | nil =>
            intro ct' _ hlen hsh
            cases ct' with
            | nil => simp [shapeEqList] at hsh
            | cons t ts => simp at hlen
        | cons v vs ihl =>
            intro ct' hsz hlen hsh
            cases ct' with
            | nil => simp at hlen
            | cons t ts =>
                have hlen2 : ts.length = vs.length := by simpa using hlen
                have hszvs : sizeOf vs ≤ k + 1 := by simp_arith at hsz; omega
                cases t with
                | scalar a =>
                    cases v with
                    | scalar x =>
                        have htl : shapeEqList ts vs = false := by
                          simpa [shapeEqList, shapeEqElem] using hsh
                        obtain ⟨e, he, hcl⟩ := ihl ts hszvs hlen2 htl
                        refine ⟨e, ?_, hcl⟩
                        rw [children_scalar_scalar, he]
                        rfl
                    | tup ws =>
                        refine ⟨MErr.depthMismatch, ?_, Or.inl rfl⟩
                        rw [children_scalar_tup, to_scalar_left]
                        rfl
                | tup us =>
                    cases v with
                    | scalar x =>
                        refine ⟨MErr.depthMismatch, ?_, Or.inl rfl⟩
                        rw [children_tup_any, to_scalar_right]
                        rfl
                    | tup ws =>
                        by_cases hus : shapeEqList us ws = true
                        · have htl : shapeEqList ts vs = false := by
                            simpa [shapeEqList, shapeEqElem, hus] using hsh
                          obtain ⟨e, he, hcl⟩ := ihl ts hszvs hlen2 htl
                          obtain ⟨hA, hB⟩ := marshal_spec (sizeOf ws) ws us le_rfl hus
                          have hok : ∃ r, CTypeTree_to_Structure (CElemT.tup us)
                              (CElemV.tup ws) = Except.ok r := by
                            cases hcol : collapsesToScalar us with
                            | true =>
                                obtain ⟨m, a2, x2, cw⟩ := hA hcol
                                exact ⟨_, cw.conv⟩
                            | false =>
                                obtain ⟨n, ct2, c2, fs2, sw⟩ := hB hcol
                                exact ⟨_, sw.conv⟩
                          obtain ⟨r, hr⟩ := hok
                          refine ⟨e, ?_, hcl⟩
                          rw [children_tup_any, hr]
                          show (toStructureChildren ts vs).bind
                            (fun rest => Except.ok (r :: rest)) = _
                          rw [he]
                          rfl
                        · have hszws2 : sizeOf ws ≤ k := by simp_arith at hsz; omega
                          have hus2 : shapeEqList us ws = false := by
                            cases h : shapeEqList us ws with
                            | true => exact absurd h hus
                            | false => rfl
                          obtain ⟨e, he, hcl⟩ := ih ws us hszws2 hus2
                          refine ⟨e, ?_, hcl⟩
                          rw [children_tup_any, he]
                          rfl
      intro c ct hsz hsh
      by_cases hlen : ct.length = c.length
      · cases ct with
        | nil =>
            cases c with
            | nil => simp [shapeEqList] at hsh
            | cons v vs => simp at hlen
        | cons t ts =>
            cases c with
            | nil => simp at hlen
            | cons v vs =>
                cases ts with
                | nil =>
                    cases vs with
                    | cons v2 vs2 => simp at hlen
                    | nil =>
                        cases t with
                        | scalar a =>
                            cases v with
                            | scalar x => simp [shapeEqList, shapeEqElem] at hsh
                            | tup ws => exact ⟨MErr.depthMismatch, rfl, Or.inl rfl⟩
                        | tup us =>
                            cases v with
                            | scalar x =>
                                refine ⟨MErr.depthMismatch, ?_, Or.inl rfl⟩
                                show CTypeTree_to_Structure (CElemT.tup us)
                                  (CElemV.scalar x) = _
                                exact to_scalar_right us x
                            | tup ws =>
                                have hus : shapeEqList us ws = false := by
                                  simpa [shapeEqList, shapeEqElem] using hsh
                                have hszws : sizeOf ws ≤ k := by
                                  simp_arith at hsz; omega
                                obtain ⟨e, he, hcl⟩ := ih ws us hszws hus
                                refine ⟨e, ?_, hcl⟩
                                show CTypeTree_to_Structure (CElemT.tup us)
                                  (CElemV.tup ws) = _
                                exact he
                | cons t2 ts2 =>
                    cases vs with
                    | nil => simp at hlen
                    | cons v2 vs2 =>
                        obtain ⟨e, he, hcl⟩ :=
                          children_mismatch (v :: v2 :: vs2) (t :: t2 :: ts2) hsz
                            (by simpa using hlen) hsh
                        refine ⟨e, ?_, hcl⟩
                        rw [to_cons_cons, if_pos hlen, he]
                        rfl
      · exact ⟨MErr.lengthMismatch, to_length_mismatch ct c hlen, Or.inr rfl⟩

/-- Round-trip corollary of `marshal_spec`: on a well-formed pair whose type
tuple does not fully collapse, marshalling yields a struct instance and
unmarshalling it against the same tree restores the value tree exactly. -/
theorem marshal_roundtrip (ct : List CElemT) (c : List CElemV)
    (hsh : shapeEqList ct c = true) (hcol : collapsesToScalar ct = false) :
    ∃ s, CTypeTree_to_Structure (CElemT.tup ct) (CElemV.tup c) = Except.ok s ∧
      CTypeTree_from_Structure (CElemT.tup ct) s = Except.ok (CElemV.tup c) := by
  obtain ⟨_, hB⟩ := marshal_spec (sizeOf c) c ct le_rfl hsh
  obtain ⟨n, ct2, c2, fs, sw⟩ := hB hcol
  refine ⟨SVal.inst (toStructTyList ct2) fs, sw.conv, ?_⟩
  rw [from_inst, sw.strip]
  show (if ct2.length = (toStructTyList ct2).length then
      (fromStructureFields ct2 (toStructTyList ct2) fs).map
        (fun vs => addShellsV n (CElemV.tup vs))
    else Except.error MErr.lengthMismatch) = _
  rw [if_pos (toStructTyList_length ct2).symm, sw.fieldsBack]
  show Except.ok (addShellsV n (CElemV.tup c2)) = _
  rw [← sw.shells]

/-- C1: the round-trip claim as stated is false — it fails exactly on the
well-formed pairs whose type tuple collapses to a single scalar, where
`CTypeTree_to_Structure` returns the bare scalar value and
`CTypeTree_from_Structure` rejects any non-`Structure` input; on every other
well-formed pair (including trees containing collapsed length-1 nodes below
the top) the composition is the identity. -/
theorem C1_roundtrip (ct : List CElemT) (c : List CElemV)
    (hsh : shapeEqList ct c = true) :
    (collapsesToScalar ct = false →
      ∃ s, CTypeTree_to_Structure (CElemT.tup ct) (CElemV.tup c) = Except.ok s ∧
        CTypeTree_from_Structure (CElemT.tup ct) s = Except.ok (CElemV.tup c)) ∧
    (collapsesToScalar ct = true →
      ∃ x, CTypeTree_to_Structure (CElemT.tup ct) (CElemV.tup c) =
          Except.ok (SVal.raw x) ∧
        CTypeTree_from_Structure (CElemT.tup ct) (SVal.raw x) =
          Except.error MErr.sNotStructure) := by
  refine ⟨marshal_roundtrip ct c hsh, ?_⟩
  intro hcol
  obtain ⟨hA, _⟩ := marshal_spec (sizeOf c) c ct le_rfl hsh
  obtain ⟨m, a, x, cw⟩ := hA hcol
  exact ⟨x, cw.conv, rfl⟩
/-- Witness for C1 at a concrete input: `T = (c_int32, (c_double,))`,
`V = (1, (2,))` — a tree containing a collapsed length-1 node. -/
theorem C1_roundtrip_witness :
    ∃ s, CTypeTree_to_Structure
        (CElemT.tup [CElemT.scalar CTy.c_int32, CElemT.tup [CElemT.scalar CTy.c_double]])
        (CElemV.tup [CElemV.scalar 1, CElemV.tup [CElemV.scalar 2]]) = Except.ok s ∧
      CTypeTree_from_Structure
        (CElemT.tup [CElemT.scalar CTy.c_int32, CElemT.tup [CElemT.scalar CTy.c_double]])
        s = Except.ok (CElemV.tup [CElemV.scalar 1, CElemV.tup [CElemV.scalar 2]]) :=
  (C1_roundtrip [CElemT.scalar CTy.c_int32, CElemT.tup [CElemT.scalar CTy.c_double]]
    [CElemV.scalar 1, CElemV.tup [CElemV.scalar 2]] rfl).1 rfl
/-- Counterexample to C1 as stated: for the well-formed pair
`T = (c_int32,)`, `V = (5,)` the conversion returns the bare scalar `5` and
converting back raises the "s must be a Structure" `TypeError` instead of
returning `V`. -/
theorem C1_roundtrip_counterexample :
    shapeEqList [CElemT.scalar CTy.c_int32] [CElemV.scalar 5] = true ∧
    CTypeTree_to_Structure (CElemT.tup [CElemT.scalar CTy.c_int32])
        (CElemV.tup [CElemV.scalar 5]) = Except.ok (SVal.raw 5) ∧
    CTypeTree_from_Structure (CElemT.tup [CElemT.scalar CTy.c_int32]) (SVal.raw 5) =
      Except.error MErr.sNotStructure :=
  ⟨rfl, rfl, rfl⟩

/-- C6: building a native struct instance from a
`(CTypeTreeType, CTypeTree)` pair succeeds exactly when the two trees have
equal nesting depth and equal length at every level; a scalar against a
tuple (either way round) is the depth-mismatch `TypeError`, tuples of
different lengths are the length-mismatch `TypeError`, and every failure is
one of those two — mismatches are never silently coerced. -/
theorem C6_shape_mismatch_errors (ct ts : List CElemT) (c vs : List CElemV)
    (a : CTy) (x : Int) :
    ((∃ r, CTypeTree_to_Structure (CElemT.tup ct) (CElemV.tup c) = Except.ok r) ↔
      shapeEqList ct c = true) ∧
    (CTypeTree_to_Structure (CElemT.scalar a) (CElemV.tup vs) =
      Except.error MErr.depthMismatch) ∧
    (CTypeTree_to_Structure (CElemT.tup ts) (CElemV.scalar x) =
      Except.error MErr.depthMismatch) ∧
    (¬ ct.length = c.length →
      CTypeTree_to_Structure (CElemT.tup ct) (CElemV.tup c) =
        Except.error MErr.lengthMismatch) ∧
    (∀ e, CTypeTree_to_Structure (CElemT.tup ct) (CElemV.tup c) = Except.error e →
      e = MErr.depthMismatch ∨ e = MErr.lengthMismatch) := by
  have hsucc : shapeEqList ct c = true →
      ∃ r, CTypeTree_to_Structure (CElemT.tup ct) (CElemV.tup c) = Except.ok r := by
    intro hsh
    obtain ⟨hA, hB⟩ := marshal_spec (sizeOf c) c ct le_rfl hsh
    cases hcol : collapsesToScalar ct with
    | true =>
        obtain ⟨m, a2, x2, cw⟩ := hA hcol
        exact ⟨_, cw.conv⟩
    | false =>
        obtain ⟨n, ct2, c2, fs, sw⟩ := hB hcol
        exact ⟨_, sw.conv⟩
  refine ⟨⟨?_, hsucc⟩, to_scalar_left a (CElemV.tup vs), to_scalar_right ts x,
    to_length_mismatch ct c, ?_⟩
  · rintro ⟨r, hr⟩
    cases hsh : shapeEqList ct c with
    | true => rfl
    | false =>
        obtain ⟨e, he, _⟩ := mismatch_spec (sizeOf c) c ct le_rfl hsh
        rw [hr] at he
        exact absurd he (by simp)
  · intro e he
    cases hsh : shapeEqList ct c with
    | true =>
        obtain ⟨r, hr⟩ := hsucc hsh
        rw [hr] at he
        exact absurd he (by simp)
    | false =>
        obtain ⟨e2, he2, hcl⟩ := mismatch_spec (sizeOf c) c ct le_rfl hsh
        rw [he] at he2
        injection he2 with h
        rw [h]
        exact hcl
/-- Witness for C6 at concrete inputs: a length mismatch and its
classification. -/
theorem C6_shape_mismatch_errors_witness :
    CTypeTree_to_Structure (CElemT.tup [CElemT.scalar CTy.c_int32]) (CElemV.tup []) =
      Except.error MErr.lengthMismatch ∧
    (MErr.lengthMismatch = MErr.depthMismatch ∨
      MErr.lengthMismatch = MErr.lengthMismatch) := by
  have h := C6_shape_mismatch_errors [CElemT.scalar CTy.c_int32] [] [] []
    CTy.c_int32 0
  refine ⟨h.2.2.2.1 (by decide), ?_⟩
  exact h.2.2.2.2 MErr.lengthMismatch (h.2.2.2.1 (by decide))

end PyDSL
